import Mathlib

/-
Verification of the actor-style runtime (framework/actor.py, framework/game.py,
framework/event.py, framework/common.py) against its natural-language
specification.  Python frozendicts are modelled as insertion-ordered
association lists; Python dynamic values as the inductive `Obj`; fallible
Python code as `Except Err`.
-/

namespace Framework

/-- Errors that the embedded Python code can raise. -/
inductive Err where
  | assertionError
  | typeError
  | attributeError
  | keyError
  | notSupported
  | opError
deriving DecidableEq, Repr

/-! ### Association lists: the shallow embedding of `frozendict` / `dict`.
`alSet` replaces in place when the key is present (keeping its position,
like Python dicts) and appends otherwise; `alDelete` returns `none` to model
`KeyError` when the key is absent. -/

def alGet {K V : Type} [DecidableEq K] : List (K × V) → K → Option V
  | [], _ => Option.none
  | (k2, v) :: rest, k => if k = k2 then some v else alGet rest k

def alSet {K V : Type} [DecidableEq K] : List (K × V) → K → V → List (K × V)
  | [], k, v => [(k, v)]
  | (k2, v2) :: rest, k, v =>
      if k = k2 then (k, v) :: rest else (k2, v2) :: alSet rest k v

def alDelete {K V : Type} [DecidableEq K] : List (K × V) → K → Option (List (K × V))
  | [], _ => Option.none
  | (k2, v2) :: rest, k =>
      if k = k2 then some rest else (alDelete rest k).map (fun r => (k2, v2) :: r)

theorem alGet_alSet_self {K V : Type} [DecidableEq K]
    (m : List (K × V)) (k : K) (v : V) : alGet (alSet m k v) k = some v := by
  induction m with
  | nil => simp [alSet, alGet]
  | cons p rest ih =>
      obtain ⟨k2, v2⟩ := p
      by_cases h : k = k2 <;> simp [alSet, alGet, h, ih]

theorem alGet_alSet_ne {K V : Type} [DecidableEq K]
    (m : List (K × V)) (k k2 : K) (v : V) (h : k2 ≠ k) :
    alGet (alSet m k v) k2 = alGet m k2 := by
  induction m with
  | nil => simp [alSet, alGet, h]
  | cons p rest ih =>
      obtain ⟨k3, v3⟩ := p
      by_cases h2 : k = k3
      · subst h2
        simp [alSet, alGet, h]
      · by_cases h3 : k2 = k3 <;> simp [alSet, alGet, h2, h3, ih]

theorem not_mem_keys_of_alGet_eq_none {K V : Type} [DecidableEq K]
    (m : List (K × V)) (k : K) (h : alGet m k = Option.none) :
    k ∉ m.map Prod.fst := by
  induction m with
  | nil => simp
  | cons p rest ih =>
      obtain ⟨k2, v2⟩ := p
      by_cases h2 : k = k2
      · simp [alGet, h2] at h
      · simp only [alGet, h2, if_false] at h
        simp [h2, ih h]

theorem mem_of_alGet_eq_some {K V : Type} [DecidableEq K]
    (m : List (K × V)) (k : K) (v : V) (h : alGet m k = some v) :
    (k, v) ∈ m := by
  induction m with
  | nil => simp [alGet] at h
  | cons p rest ih =>
      obtain ⟨k2, v2⟩ := p
      by_cases h2 : k = k2
      · simp only [alGet, h2, if_true] at h
        obtain rfl := Option.some.inj h
        subst h2
        exact List.mem_cons_self _ _
      · simp only [alGet, h2, if_false] at h
        exact List.mem_cons_of_mem _ (ih h)

theorem alGet_self_of_nodup {K V : Type} [DecidableEq K]
    (m : List (K × V)) (hnd : (m.map Prod.fst).Nodup) :
    ∀ p ∈ m, alGet m p.1 = some p.2 := by
  induction m with
  | nil => simp
  | cons q rest ih =>
      obtain ⟨k2, v2⟩ := q
      simp only [List.map_cons, List.nodup_cons] at hnd
      intro p hp
      rcases List.mem_cons.mp hp with h | h
      · subst h
        simp [alGet]
      · have hne : p.1 ≠ k2 := by
          intro hcontra
          exact hnd.1 (hcontra ▸ List.mem_map_of_mem Prod.fst h)
        simp only [alGet, hne, if_false]
        exact ih hnd.2 p h

theorem alDelete_eq_none_iff {K V : Type} [DecidableEq K]
    (m : List (K × V)) (k : K) :
    alDelete m k = Option.none ↔ alGet m k = Option.none := by
  induction m with
  | nil => simp [alDelete, alGet]
  | cons p rest ih =>
      obtain ⟨k2, v2⟩ := p
      by_cases h : k = k2
      · simp [alDelete, alGet, h]
      · simp [alDelete, alGet, h, Option.map_eq_none', ih]

/-! ### Dynamic Python values.
`Obj` models the Python objects that flow through the actor: `None`,
booleans, integers, strings and (frozen) dataclass instances, whose named
fields form an insertion-ordered mapping.  `py_truthy` is Python `bool()`:
dataclass instances without a custom `__bool__` or `__len__` are always
truthy. -/

inductive Obj where
  | none
  | bool (b : Bool)
  | nat (n : Nat)
  | str (s : String)
  | state (fields : List (String × Obj))

def py_truthy : Obj → Bool
  | .none => false
  | .bool b => b
  | .nat n => decide (n ≠ 0)
  | .str s => decide (s ≠ "")
  | .state _ => true

/-- Truthiness of a `SetRequest.field` / `ExecuteRequest.field` value
(`if self.field` in the source): absent (`None`) and the empty string are
falsy. -/
def fieldTruthy : Option String → Bool
  | Option.none => false
  | some s => decide (s ≠ "")

/-- Embedding of `_state_getter` (actor.py line 116): `getattr(state, key)`;
raises `AttributeError` when the attribute is missing or the object has no
such attribute. -/
def _state_getter (state : Obj) (key : String) : Except Err Obj :=
  match state with
  | .state fs =>
      match alGet fs key with
      | some v => .ok v
      | Option.none => .error .attributeError
  | _ => .error .attributeError

/-- Embedding of `_state_setter` (actor.py lines 120-123):
`assert is_dataclass(state)` then `replace(state, **{key: value})`.
With `key = None` the keyword unpacking raises `TypeError`
("keywords must be strings"); with a key that is not a field of the
dataclass, `replace` raises `TypeError` (unexpected keyword). -/
def _state_setter (state : Obj) (key : Option String) (value : Obj) :
    Except Err Obj :=
  match state with
  | .state fs =>
      match key with
      | Option.none => .error .typeError
      | some k =>
          if (alGet fs k).isSome then .ok (.state (alSet fs k value))
          else .error .typeError
  | _ => .error .assertionError

/-- Embedding of `SetRequest.__call__` (actor.py lines 21-30): invokes the
wrapped operation on `state.field` when `field` is truthy, else on the whole
state, then calls `_state_setter(state, self.field, result)` —
unconditionally, with the original (possibly absent) field.  `opn` is the
denotation of the awaited operation (it may raise). -/
def setRequestCall (fieldName : Option String) (opn : Obj → Except Err Obj)
    (state : Obj) : Except Err Obj := do
  let input ←
    if fieldTruthy fieldName then _state_getter state (fieldName.getD "")
    else .ok state
  let result ← opn input
  _state_setter state fieldName result

/-- Final observable state of the `reply_to` future of an `ExecuteRequest`
that carries a reply channel.  `resolvedFailure` is the behaviour the spec
asks for (fulfil with the failure); the code never produces it. -/
inductive ReplyState where
  | unresolved
  | resolvedValue (v : Obj)
  | resolvedFailure (e : Err)

/-- Embedding of `ExecuteRequest.__call__` (actor.py lines 39-49) for a
request with a reply channel, tracking what happens to the reply future.
The getter runs while building the operation's arguments; `create_task`
starts the operation; `self.reply_to.set_result(await result)` only runs
when `await result` does not raise — if the operation raises, the awaiting
`__call__` task dies and `set_result` is never executed, leaving the
future unresolved. -/
def executeRequestReply (fieldName : Option String)
    (opn : Obj → Except Err Obj) (state : Obj) : ReplyState :=
  match
    (if fieldTruthy fieldName then _state_getter state (fieldName.getD "")
     else .ok state) with
  | .error _ => .unresolved
  | .ok input =>
      match opn input with
      | .ok v => .resolvedValue v
      | .error _ => .unresolved

/-! ### The mailbox consumer (actor.py `consume`, common.py `coroutine_reduce`).
A dequeued request is either a `SetRequest` — whose whole `__call__`
denotation is a function from the current state to a new state (or an
exception) — or an `ExecuteRequest`, whose detached effect is summarised by
its reply denotation and which `consume` does not fold into the state. -/

inductive Request (σ : Type) where
  | setRequest (call : σ → Except Err σ)
  | executeRequest (payload : σ → ReplyState)

/-- Embedding of `consume` (actor.py lines 62-77): dequeue one request;
for a `SetRequest`, `result = await request(state); assert result` — the
assertion tests the truthiness of the value returned by the request call;
for an `ExecuteRequest`, spawn it detached and keep `result = state`.
`truthy` is the state type's Python truthiness. -/
def consume {σ : Type} (truthy : σ → Bool) (state : σ) (request : Request σ) :
    Except Err σ :=
  match request with
  | .setRequest call => do
      let result ← call state
      if truthy result then .ok result else .error .assertionError
  | .executeRequest _ => .ok state

/-- Embedding of `coroutine_reduce(consume, data, mailbox)` (common.py
lines 13-25) over the finite list of requests dequeued before cancellation:
a sequential left fold of `consume`, seeded by the initial state.  An
exception escaping `consume` aborts the fold (only `CancelledError` is
caught in the source). -/
def consumeAll {σ : Type} (truthy : σ → Bool) (initial : σ)
    (requests : List (Request σ)) : Except Err σ :=
  requests.foldlM (consume truthy) initial

def isSetRequest {σ : Type} : Request σ → Bool
  | .setRequest _ => true
  | .executeRequest _ => false

/-! ### game.py: events registry, elements, listeners. -/

/-- Embedding of `SystemEvent` (game.py lines 19-23). -/
inductive SystemEvent where
  | INIT
  | EXIT
  | REFRESH
  | FRAME_NEXT
deriving DecidableEq, Repr

/-- Embedding of `event_register` (game.py lines 95-98):
`events.set(event, pygame.event.custom_type())`.  The external allocator
`pygame.event.custom_type()` returns a brand-new tag on every call; it is
modelled by the explicit `freshTag` argument.  The allocator is called, and
the mapping overwritten, unconditionally. -/
def event_register {K : Type} [DecidableEq K] (events : List (K × Nat))
    (event : K) (freshTag : Nat) : List (K × Nat) :=
  alSet events event freshTag

/-- Embedding of `pygame.Rect` as used by the hit test: left/top corner
plus width and height. -/
structure Rect where
  x : Int
  y : Int
  w : Int
  h : Int
deriving DecidableEq, Repr

/-- Embedding of `Rect.collidepoint`: inside the rectangle, right and
bottom edges excluded. -/
def collidepoint (r : Rect) (mx my : Int) : Bool :=
  decide (r.x ≤ mx ∧ mx < r.x + r.w ∧ r.y ≤ my ∧ my < r.y + r.h)

/-- Embedding of `Element` (game.py lines 26-29); the uuid identity is
modelled as a `Nat`. -/
structure Element where
  position : Option Rect := Option.none
  id : Nat
deriving DecidableEq, Repr

/-- Embedding of `Listener` (game.py lines 32-35); the opaque callback is
modelled as a `Nat` label. -/
structure Listener where
  event_type : Nat
  op : Nat
deriving DecidableEq, Repr

/-- Keys of the inner listener map: the wildcard `"*"` or an element id. -/
inductive TKey where
  | wildcard
  | elemId (i : Nat)
deriving DecidableEq, Repr

/-- The `Application.listeners` field: event type → (target key → ordered
listener tuple). -/
abbrev Registry := List (Nat × List (TKey × List Listener))

/-- The value matched by `listener_add`'s `match target` (game.py lines
164-172): an `Element`, `None`, or anything else. -/
inductive Target where
  | element (e : Element)
  | null
  | other
deriving Repr

/-- Embedding of `listener_add` (game.py lines 158-181): picks the target
key (`target.id` for an element, `"*"` for `None`, raising
`Exception("Not supported")` otherwise) and appends
`Listener(event_type, listener)` at the end of the tuple stored at
`(event_type, key)`. -/
def listener_add (listeners : Registry) (target : Target) (event_type : Nat)
    (listener : Nat) : Except Err Registry := do
  let key ←
    match target with
    | .element e => Except.ok (TKey.elemId e.id)
    | .null => Except.ok TKey.wildcard
    | .other => Except.error Err.notSupported
  .ok (alSet listeners event_type
    (alSet ((alGet listeners event_type).getD [])
      key
      (((alGet ((alGet listeners event_type).getD []) key).getD [])
        ++ [⟨event_type, listener⟩])))

/-- Embedding of the local `_delete_listeners` reduction step inside
`listeners_remove` (game.py lines 133-142):
`current.set(event, listeners.delete(element.id))`, with a `KeyError`
from `delete` caught and `current` returned unchanged. -/
def _delete_listeners (key : TKey) (current : Registry)
    (incoming : Nat × List (TKey × List Listener)) : Registry :=
  match alDelete incoming.2 key with
  | some inner => alSet current incoming.1 inner
  | Option.none => current

/-- Embedding of `listeners_remove` (game.py lines 129-144):
`reduce(_delete_listeners, listeners.items(), listeners)`. -/
def listeners_remove (listeners : Registry) (element : Element) : Registry :=
  listeners.foldl (_delete_listeners (TKey.elemId element.id)) listeners

/-! ### event.py: the mouse dispatcher. -/

/-- The slice of `Application` (game.py lines 38-57) that the dispatcher
reads: the listener registry and the element collection.  The remaining
fields (screen, clock, timing data, display queue, exit event) are opaque
backend handles never consulted by `dispatch_mouse` / `dispatch_to_target`. -/
structure Application where
  listeners : Registry
  elements : List (Nat × Element)
deriving Repr

/-- Embedding of the `pygame.event.Event` attributes the dispatcher reads:
`event.type` and `event.pos`. -/
structure MouseEvent where
  etype : Nat
  pos : Int × Int
deriving Repr

/-- Embedding of `check_is_collide` (event.py lines 36-41):
`assert isinstance(element.position, pygame.Rect)` then
`element.position.collidepoint(mouse_x, mouse_y)`. -/
def check_is_collide (element : Element) (event : MouseEvent) :
    Except Err Bool :=
  match element.position with
  | some r => .ok (collidepoint r event.pos.1 event.pos.2)
  | Option.none => .error .assertionError

/-- Listener tasks created by the loop
`for listener in chain: create_task(listener.op(event, application.elements[target], ...))`
(event.py lines 75-80): the element lookup happens while building each
call's arguments, so a missing element raises `KeyError` before any further
listener fires.  Returns the fired callback labels in creation order. -/
def fire_chain_for_target (app : Application) (target : Nat)
    (chain : List Listener) : Except Err (List Nat) :=
  match chain with
  | [] => .ok []
  | l :: rest =>
      match alGet app.elements target with
      | Option.none => .error .keyError
      | some _ => (fire_chain_for_target app target rest).map
          (fun fs => l.op :: fs)

/-- Listener tasks created by the untargeted branch of `dispatch_to_target`
(event.py lines 82-94): for every `(elem, listeners)` entry of the event
type's map, every listener fires — with the whole application when the key
is `"*"`, and with `application.elements[elem]` otherwise. -/
def fire_untargeted (app : Application)
    (inner : List (TKey × List Listener)) : Except Err (List Nat) :=
  match inner with
  | [] => .ok []
  | (TKey.wildcard, chain) :: rest =>
      (fire_untargeted app rest).map (fun fs => chain.map (fun l => l.op) ++ fs)
  | (TKey.elemId i, chain) :: rest => do
      let first ← fire_chain_for_target app i chain
      let more ← fire_untargeted app rest
      .ok (first ++ more)

/-- Embedding of `dispatch_to_target` (event.py lines 67-94), returning the
labels of the listener callbacks it fires, in task-creation order. -/
def dispatch_to_target (app : Application) (event : MouseEvent)
    (target : Option Nat) : Except Err (List Nat) :=
  match target with
  | some t =>
      fire_chain_for_target app t
        ((alGet ((alGet app.listeners event.etype).getD []) (TKey.elemId t)).getD [])
  | Option.none => fire_untargeted app ((alGet app.listeners event.etype).getD [])

/-- The per-element loop of `dispatch_mouse` (event.py lines 56-64): walk
the keys of the event type's listener map, skip `"*"`, look the element up
(`KeyError` if absent), hit-test it (`check_is_collide`), and on a hit
dispatch to that element. -/
def collide_scan (app : Application) (event : MouseEvent)
    (inner : List (TKey × List Listener)) : Except Err (List Nat) :=
  match inner with
  | [] => .ok []
  | (TKey.wildcard, _) :: rest => collide_scan app event rest
  | (TKey.elemId i, _) :: rest =>
      match alGet app.elements i with
      | Option.none => .error .keyError
      | some el => do
          let hit ← check_is_collide el event
          let fired ←
            if hit then dispatch_to_target app event (some i) else .ok []
          let more ← collide_scan app event rest
          .ok (fired ++ more)

/-- Embedding of `dispatch_mouse` (event.py lines 44-64): first schedules
`dispatch_to_target(application, event, None, ...)`, then the hit-tested
per-element dispatches. -/
def dispatch_mouse (app : Application) (event : MouseEvent) :
    Except Err (List Nat) := do
  let first ← dispatch_to_target app event Option.none
  let hits ← collide_scan app event ((alGet app.listeners event.etype).getD [])
  .ok (first ++ hits)

/-! ### Claim theorems. -/

/-- Claim C1: the consume loop is a sequential left fold over the request
stream, and the final state is obtained by applying exactly the mutate
(`SetRequest`) steps, in FIFO enqueue order, seeded by the initial state —
however many `ExecuteRequest`s (invoke requests) interleave, they do not
contribute to the fold. -/
theorem consume_loop_is_left_fold {σ : Type} (truthy : σ → Bool) (s : σ)
    (reqs : List (Request σ)) :
    consumeAll truthy s reqs = consumeAll truthy s (reqs.filter isSetRequest) := by
  induction reqs generalizing s with
  | nil => rfl
  | cons r rest ih =>
      cases r with
      | setRequest call =>
          have hf : (Request.setRequest call :: rest).filter isSetRequest
              = Request.setRequest call :: rest.filter isSetRequest := by
            simp [List.filter_cons, isSetRequest]
          rw [consumeAll, hf, consumeAll, List.foldlM_cons, List.foldlM_cons]
          cases h : consume truthy s (Request.setRequest call) with
          | ok s2 =>
              simp only [h, bind, Except.bind]
              exact ih s2
          | error e => simp only [h, bind, Except.bind]
      | executeRequest payload =>
          have hf : (Request.executeRequest payload :: rest).filter isSetRequest
              = rest.filter isSetRequest := by
            simp [List.filter_cons, isSetRequest]
          rw [consumeAll, hf, List.foldlM_cons]
          have hc : consume truthy s (Request.executeRequest payload)
              = Except.ok s := rfl
          simp only [hc, bind, Except.bind]
          exact ih s

/-- Claim C5: processing an `ExecuteRequest` (invoke request) leaves the
mailbox actor's state unchanged — the consume step returns exactly the
state value it was given. -/
theorem execute_request_leaves_state_unchanged {σ : Type} (truthy : σ → Bool)
    (s : σ) (payload : σ → ReplyState) :
    consume truthy s (Request.executeRequest payload) = Except.ok s := rfl

/-- Claim C6 (evaluation at the failing input): an `ExecuteRequest` whose
wrapped operation raises leaves its reply channel unresolved forever — the
`set_result` call is skipped because `await result` re-raises — instead of
fulfilling it with the failure as the claim requires. -/
theorem execute_request_reply_unresolved_on_failure (st : Obj) (e : Err) :
    executeRequestReply Option.none (fun _ => Except.error e) st
      = ReplyState.unresolved := rfl

/-- The ordered listener chain registered for `(event_type, key)`:
`listeners.get(event_type, frozendict()).get(key, ())`. -/
def chainOf (listeners : Registry) (event_type : Nat) (key : TKey) :
    List Listener :=
  (alGet ((alGet listeners event_type).getD []) key).getD []

/-- Claim C8: `listener_add` appends the callback at the end of the ordered
listener chain for `(event_type, target_key)` — the element's id when the
target is an element, the wildcard key when the target is `None` — keeping
every previously registered listener of that pair in its original order,
and raises (`Exception("Not supported")`) for any other target value. -/
theorem listener_add_appends_spec (L : Registry) (et cb : Nat) :
    (∀ e : Element,
      (listener_add L (Target.element e) et cb).map
          (fun L2 => chainOf L2 et (TKey.elemId e.id))
        = Except.ok (chainOf L et (TKey.elemId e.id) ++ [⟨et, cb⟩]))
    ∧ ((listener_add L Target.null et cb).map
          (fun L2 => chainOf L2 et TKey.wildcard)
        = Except.ok (chainOf L et TKey.wildcard ++ [⟨et, cb⟩]))
    ∧ (listener_add L Target.other et cb = Except.error Err.notSupported) := by
  refine ⟨fun e => ?_, ?_, rfl⟩ <;>
    simp [listener_add, chainOf, Except.map, bind, Except.bind,
      alGet_alSet_self]

/-- Claim C3 (counterexample): re-registering a key that is already present
does not leave its tag unchanged — starting from a registry mapping
`SystemEvent.INIT` to tag 5, `event_register` with the allocator handing
out fresh tag 6 maps `INIT` to 6, not 5. -/
theorem event_register_reregister_changes_tag :
    alGet (event_register [(SystemEvent.INIT, 5)] SystemEvent.INIT 6)
      SystemEvent.INIT ≠ some 5 := by decide

/-- Claim C3 (amended): `event_register` always calls the tag allocator and
maps the key to the newly allocated tag, overwriting any existing tag — it
is not idempotent per key — and entries of other keys are unchanged. -/
theorem event_register_always_overwrites {K : Type} [DecidableEq K]
    (events : List (K × Nat)) (k : K) (freshTag : Nat) :
    alGet (event_register events k freshTag) k = some freshTag
    ∧ ∀ k2, k2 ≠ k →
        alGet (event_register events k freshTag) k2 = alGet events k2 :=
  ⟨alGet_alSet_self events k freshTag,
   fun k2 h => alGet_alSet_ne events k k2 freshTag h⟩

/-- Claim C3 (witness for the amended theorem): at the concrete registry
mapping `INIT` to 5, registering `INIT` with fresh tag 6 yields tag 6 for
`INIT` and leaves the (absent) `EXIT` entry unchanged. -/
theorem event_register_always_overwrites_witness :
    alGet (event_register [(SystemEvent.INIT, 5)] SystemEvent.INIT 6)
      SystemEvent.INIT = some 6
    ∧ alGet (event_register [(SystemEvent.INIT, 5)] SystemEvent.INIT 6)
        SystemEvent.EXIT = alGet [(SystemEvent.INIT, 5)] SystemEvent.EXIT :=
  ⟨(event_register_always_overwrites [(SystemEvent.INIT, 5)]
      SystemEvent.INIT 6).1,
   (event_register_always_overwrites [(SystemEvent.INIT, 5)]
      SystemEvent.INIT 6).2 SystemEvent.EXIT (by decide)⟩

/-- Claim C4 (counterexample): a `SetRequest` with no target field does not
replace the whole state with the operation's result — `__call__` still
passes the absent field to `_state_setter`, whose keyword unpacking raises
`TypeError`.  Concretely, on state `{f: 1}` with an operation producing the
state `{g: 2}`, processing yields the `TypeError`, not the new state. -/
theorem set_request_whole_state_counterexample :
    setRequestCall Option.none
      (fun _ => Except.ok (Obj.state [("g", Obj.nat 2)]))
      (Obj.state [("f", Obj.nat 1)]) = Except.error Err.typeError := rfl

/-- Claim C4 (amended): processing a `SetRequest` invokes its operation
against `state.target_field` when a (truthy) field is given and against the
whole state otherwise; with a field naming an existing attribute the result
is the state with that field replaced by the operation's result, but with
no field the setter is still called with the absent key and raises
`TypeError` — the whole state is never replaced. -/
theorem set_request_field_semantics (fs : List (String × Obj)) (k : String)
    (w v v2 : Obj) (opn op2 : Obj → Except Err Obj) :
    (k ≠ "" → alGet fs k = some w → opn w = Except.ok v →
      setRequestCall (some k) opn (Obj.state fs)
        = Except.ok (Obj.state (alSet fs k v)))
    ∧ (op2 (Obj.state fs) = Except.ok v2 →
      setRequestCall Option.none op2 (Obj.state fs)
        = Except.error Err.typeError) := by
  constructor
  · intro hk hget hop
    simp [setRequestCall, fieldTruthy, hk, _state_getter, hget, hop,
      _state_setter, bind, Except.bind]
  · intro hop2
    simp [setRequestCall, fieldTruthy, hop2, _state_setter, bind, Except.bind]

/-- Claim C4 (witness): the amended theorem evaluated on the concrete state
`{f: 1}` — a field-targeted request installs the produced value 2 at `f`; a
field-less request raises `TypeError`. -/
theorem set_request_field_semantics_witness :
    setRequestCall (some "f") (fun _ => Except.ok (Obj.nat 2))
        (Obj.state [("f", Obj.nat 1)])
      = Except.ok (Obj.state (alSet [("f", Obj.nat 1)] "f" (Obj.nat 2)))
    ∧ setRequestCall Option.none (fun _ => Except.ok (Obj.nat 3))
        (Obj.state [("f", Obj.nat 1)]) = Except.error Err.typeError :=
  ⟨(set_request_field_semantics [("f", Obj.nat 1)] "f" (Obj.nat 1)
      (Obj.nat 2) (Obj.nat 3) (fun _ => Except.ok (Obj.nat 2))
      (fun _ => Except.ok (Obj.nat 3))).1 (by decide) rfl rfl,
   (set_request_field_semantics [("f", Obj.nat 1)] "f" (Obj.nat 1)
      (Obj.nat 2) (Obj.nat 3) (fun _ => Except.ok (Obj.nat 2))
      (fun _ => Except.ok (Obj.nat 3))).2 rfl⟩

/-- Claim C7 (evaluation at the failing input): a `SetRequest` targeting
field `f` whose operation produces `None` does not make the consume step
fail — `assert result` tests the freshly built dataclass state, which is
truthy — so the `None` is silently installed at field `f` and the fold
continues. -/
theorem consume_installs_none_result :
    consume py_truthy (Obj.state [("f", Obj.nat 1)])
      (Request.setRequest
        (setRequestCall (some "f") (fun _ => Except.ok Obj.none)))
      = Except.ok (Obj.state [("f", Obj.none)]) := rfl

/-- Claim C10 (counterexample): a mutate operation returning the falsy
non-null value 0 does not trip the assertion in `consume` — the step
returns the new state with 0 installed at the target field, and does not
abort with any error. -/
theorem consume_falsy_installed_counterexample :
    consume py_truthy (Obj.state [("f", Obj.nat 1)])
      (Request.setRequest
        (setRequestCall (some "f") (fun _ => Except.ok (Obj.nat 0))))
      = Except.ok (Obj.state [("f", Obj.nat 0)])
    ∧ ∀ er : Err, consume py_truthy (Obj.state [("f", Obj.nat 1)])
        (Request.setRequest
          (setRequestCall (some "f") (fun _ => Except.ok (Obj.nat 0))))
        ≠ Except.error er := by
  refine ⟨rfl, fun er h => ?_⟩
  have h2 : (Except.error er : Except Err Obj)
      = Except.ok (Obj.state [("f", Obj.nat 0)]) := h.symm.trans rfl
  exact Except.noConfusion h2

/-- Claim C10 (amended): the assertion in `consume` checks the truthiness
of the whole state produced by the request call, not of the operation's
produced value; field replacement on a dataclass state always yields a
truthy dataclass instance, so any produced value — falsy or null included —
is installed at the target field without aborting the fold. -/
theorem consume_assert_checks_state_truthiness (fs : List (String × Obj))
    (k : String) (w v : Obj) (hk : k ≠ "") (hget : alGet fs k = some w) :
    consume py_truthy (Obj.state fs)
      (Request.setRequest (setRequestCall (some k) (fun _ => Except.ok v)))
      = Except.ok (Obj.state (alSet fs k v)) := by
  simp [consume, setRequestCall, fieldTruthy, hk, _state_getter, hget,
    _state_setter, py_truthy, bind, Except.bind]

/-- Claim C10 (witness for the amended theorem): on the concrete state
`{f: 1}`, an operation producing the falsy value `False` gets installed at
`f` and the step succeeds. -/
theorem consume_assert_checks_state_truthiness_witness :
    consume py_truthy (Obj.state [("f", Obj.nat 1)])
      (Request.setRequest
        (setRequestCall (some "f") (fun _ => Except.ok (Obj.bool false))))
      = Except.ok (Obj.state (alSet [("f", Obj.nat 1)] "f" (Obj.bool false))) :=
  consume_assert_checks_state_truthiness [("f", Obj.nat 1)] "f" (Obj.nat 1)
    (Obj.bool false) (by decide) rfl

/-- Concrete application for exercising `dispatch_mouse`: one wildcard
listener (label 0) and three elements — element 1 (bounds containing the
pointer at (5,5)) with listener 1, element 2 (bounds far away) with
listener 2, element 3 (bounds far away) with listener 3 — all registered
for event type 1. -/
def appC2 : Application :=
  { listeners := [(1, [(TKey.wildcard, [⟨1, 0⟩]), (TKey.elemId 1, [⟨1, 1⟩]),
      (TKey.elemId 2, [⟨1, 2⟩]), (TKey.elemId 3, [⟨1, 3⟩])])],
    elements := [(1, ⟨some ⟨0, 0, 10, 10⟩, 1⟩),
      (2, ⟨some ⟨100, 100, 10, 10⟩, 2⟩),
      (3, ⟨some ⟨200, 200, 10, 10⟩, 3⟩)] }

/-- Claim C2 (evaluation at the failing input): dispatching a pointer-button
occurrence at (5,5) — inside element 1's bounds only — fires listeners
0, 1, 2 and 3 through the untargeted `dispatch_to_target` branch (which
walks every entry of the event type's map without hit-testing) and then
listener 1 a second time through the hit-tested per-element dispatch.  The
listeners of the non-colliding elements 2 and 3 fire, contradicting the
claim that only the colliding element's listeners and the wildcard
listeners fire. -/
theorem dispatch_mouse_fires_noncolliding :
    dispatch_mouse appC2 ⟨1, (5, 5)⟩ = Except.ok [0, 1, 2, 3, 1] := rfl

/-- If the removed key appears nowhere among the processed items' keys, the
`listeners_remove` fold leaves every lookup unchanged. -/
theorem remove_foldl_get_notmem (key : TKey) (items : Registry) :
    ∀ (cur : Registry) (k : Nat), k ∉ items.map Prod.fst →
      alGet (items.foldl (_delete_listeners key) cur) k = alGet cur k := by
  induction items with
  | nil => intro cur k _; rfl
  | cons a rest ih =>
      intro cur k h
      simp only [List.map_cons, List.mem_cons, not_or] at h
      rw [List.foldl_cons, ih _ _ h.2]
      cases hd : alDelete a.2 key with
      | none => simp [_delete_listeners, hd]
      | some inner =>
          simp only [_delete_listeners, hd]
          exact alGet_alSet_ne cur a.1 k inner h.1

/-- Under distinct event-type keys, the `listeners_remove` fold rewrites
each event type's inner map to its version with the removed key deleted
(unchanged when the key was absent). -/
theorem remove_foldl_get_mem (key : TKey) (items : Registry) :
    ∀ (cur : Registry), (items.map Prod.fst).Nodup →
      (∀ p ∈ items, alGet cur p.1 = some p.2) →
      ∀ (et : Nat) (m : List (TKey × List Listener)), (et, m) ∈ items →
        alGet (items.foldl (_delete_listeners key) cur) et
          = some ((alDelete m key).getD m) := by
  induction items with
  | nil => intro cur _ _ et m h; simp at h
  | cons a rest ih =>
      intro cur hnd hcur et m hmem
      obtain ⟨a1, a2⟩ := a
      simp only [List.map_cons, List.nodup_cons] at hnd
      rw [List.foldl_cons]
      have hstep : ∀ p ∈ rest,
          alGet (_delete_listeners key cur (a1, a2)) p.1 = some p.2 := by
        intro p hp
        have hne : p.1 ≠ a1 := fun hc =>
          hnd.1 (hc ▸ List.mem_map_of_mem Prod.fst hp)
        cases hd : alDelete a2 key with
        | none =>
            simp only [_delete_listeners, hd]
            exact hcur p (List.mem_cons_of_mem _ hp)
        | some inner =>
            simp only [_delete_listeners, hd]
            rw [alGet_alSet_ne cur a1 p.1 inner hne]
            exact hcur p (List.mem_cons_of_mem _ hp)
      rcases List.mem_cons.mp hmem with hhd | htl
      · obtain ⟨rfl, rfl⟩ := Prod.mk.injEq .. ▸ hhd
        have hnotin : et ∉ rest.map Prod.fst := hnd.1
        rw [remove_foldl_get_notmem key rest _ et hnotin]
        cases hd : alDelete m key with
        | none =>
            simp only [_delete_listeners, hd, Option.getD]
            exact hcur (et, m) (List.mem_cons_self _ _)
        | some inner =>
            simp only [_delete_listeners, hd, Option.getD]
            exact alGet_alSet_self cur et inner
      · exact ih _ hnd.2 hstep et m htl

/-- Claim C9: removing a never-registered element with `listeners_remove`
returns a registry structurally equal to the input (a no-op, not an error);
in general, on a registry with distinct event-type keys, it removes the
element's identity key from every event type's target map, leaving
everything else as it was. -/
theorem listeners_remove_spec_thm (L : Registry) (e : Element) :
    ((∀ p ∈ L, alGet p.2 (TKey.elemId e.id) = Option.none) →
      listeners_remove L e = L)
    ∧ ((L.map Prod.fst).Nodup → ∀ et : Nat,
        alGet (listeners_remove L e) et
          = (alGet L et).map
              (fun m => (alDelete m (TKey.elemId e.id)).getD m)) := by
  constructor
  · intro habs
    unfold listeners_remove
    have hgen : ∀ (items cur : Registry),
        (∀ p ∈ items, alGet p.2 (TKey.elemId e.id) = Option.none) →
        items.foldl (_delete_listeners (TKey.elemId e.id)) cur = cur := by
      intro items
      induction items with
      | nil => intro cur _; rfl
      | cons a rest ih =>
          intro cur h
          rw [List.foldl_cons]
          have hda : alDelete a.2 (TKey.elemId e.id) = Option.none :=
            (alDelete_eq_none_iff _ _).mpr (h a (List.mem_cons_self _ _))
          have hstep : _delete_listeners (TKey.elemId e.id) cur a = cur := by
            simp [_delete_listeners, hda]
          rw [hstep]
          exact ih cur (fun p hp => h p (List.mem_cons_of_mem _ hp))
    exact hgen L L habs
  · intro hnd et
    unfold listeners_remove
    cases hget : alGet L et with
    | none =>
        have hnm := not_mem_keys_of_alGet_eq_none L et hget
        rw [remove_foldl_get_notmem _ L L et hnm, hget]
        rfl
    | some m =>
        have hmem := mem_of_alGet_eq_some L et m hget
        have hcur := alGet_self_of_nodup L hnd
        rw [remove_foldl_get_mem _ L L hnd hcur et m hmem]
        rfl

/-- Concrete registry for the C9 witness: a wildcard listener under event
type 1 and element 5's listener under event type 2. -/
def regW1 : Registry :=
  [(1, [(TKey.wildcard, [⟨1, 0⟩])]), (2, [(TKey.elemId 5, [⟨2, 7⟩])])]

/-- Claim C9 (witness): removing the never-registered element 9 leaves the
concrete registry unchanged, and removing element 5 rewrites event type 2's
map to its version with key 5 deleted. -/
theorem listeners_remove_spec_witness :
    listeners_remove regW1 ⟨Option.none, 9⟩ = regW1
    ∧ alGet (listeners_remove regW1 ⟨Option.none, 5⟩) 2
        = (alGet regW1 2).map
            (fun m => (alDelete m (TKey.elemId (Element.mk Option.none 5).id)).getD m) :=
  ⟨(listeners_remove_spec_thm regW1 ⟨Option.none, 9⟩).1 (by decide),
   (listeners_remove_spec_thm regW1 ⟨Option.none, 5⟩).2 (by decide) 2⟩

end Framework
